import Mathlib

/-!
# Verification of the salamander correlation layer

Shallow embedding of the correlation layer of the `salamander` bot:
`Salamander.check_basalisk` (src/bot.py), the `Filter` cog
(src/extensions/filter/filter.py), and the dispatcher semantics they rely
on.  Python values crossing the IPC boundary are embedded as `PyVal`;
the two waiter predicates (`matches` closures) are embedded as `Check`;
the asynchronous wait-with-timeout is embedded as a fold over the list of
inbound `ipc_recv` events dispatched before the deadline.
-/

set_option maxHeartbeats 1000000

/-- A Python value as it appears in IPC payloads: bytes objects, strings,
`None`, integers, tuples, and string-keyed dicts. -/
inductive PyVal where
  | bytes (b : List Nat)
  | str (s : String)
  | pnone
  | num (n : Nat)
  | tup (elems : List PyVal)
  | dict (entries : List (String × PyVal))

/-- Python `v == some_bytes_object`: true exactly when `v` is a bytes object
with the same contents. -/
def PyVal.isBytes (b : List Nat) : PyVal → Bool
  | .bytes b' => b' == b
  | _ => false

/-- Python `v == some_str`: true exactly when `v` is a string with the same
contents. -/
def PyVal.isStr (s : String) : PyVal → Bool
  | .str s' => s' == s
  | _ => false

/-- Python truthiness of a `PyVal` (`if patterns:`). -/
def PyVal.truthy : PyVal → Bool
  | .bytes b => !b.isEmpty
  | .str s => !s.isEmpty
  | .pnone => false
  | .num n => n != 0
  | .tup l => !l.isEmpty
  | .dict l => !l.isEmpty

-- Topic constants, from bot.py and filter.py.

def BASALISK : String := "basalisk"

def BASALISK_GAZE : String := "basalisk.gaze"

def BASALISK_OFFER : String := "basalisk.offer"

def REFOCUS : String := "basalisk.refocus"

def STATUS_CHECK : String := "status.check"

def STATUS_RESPONSE : String := "status.response"

/-- The two waiter predicates of the repository, deeply embedded so that
dispatcher states stay decidable.  `basalisk uuid` is the `matches` closure
of `Salamander.check_basalisk`; `status uuid` is the `matches` closure of
`Filter.listpatterns`. -/
inductive Check where
  | basalisk (uuid : List Nat)
  | status (uuid : List Nat)
deriving DecidableEq

/-- Evaluate a waiter predicate on an inbound `ipc_recv` event
`(topic, payload)`.  `none` means the Python check raised (tuple unpacking
failed), which discord.py turns into an exception on the waiting future.

`Check.basalisk uuid`  embeds (bot.py, `check_basalisk.matches`):
    `topic, (recv_uuid, *_data) = args`
    `return topic == BASALISK_GAZE and recv_uuid == this_uuid`

`Check.status uuid`  embeds (filter.py, `listpatterns.matches`):
    `topic, (recv_uuid, component_name, *_data) = args`
    `return topic == STATUS_RESPONSE and recv_uuid == this_uuid`
    `       and component_name == BASALISK` -/
def Check.eval : Check → String → PyVal → Option Bool
  | .basalisk uuid, topic, payload =>
    match payload with
    | .tup (recv :: _) => some (topic == BASALISK_GAZE && recv.isBytes uuid)
    | _ => none
  | .status uuid, topic, payload =>
    match payload with
    | .tup (recv :: comp :: _) =>
      some (topic == STATUS_RESPONSE && recv.isBytes uuid && comp.isStr BASALISK)
    | _ => none

/-- Outcome of awaiting `bot.wait_for("ipc_recv", check, timeout)`:
the first event on which the check returns true resolves the future with
that event, a check exception resolves it exceptionally, and if no event
before the deadline does either, the wait times out. -/
inductive WaitOutcome where
  | ok (topic : String) (payload : PyVal)
  | errd
  | timedOut

/-- Run a waiter predicate over the inbound `ipc_recv` events dispatched
before the deadline, in dispatch order. -/
def runWait (c : Check) : List (String × PyVal) → WaitOutcome
  | [] => .timedOut
  | (t, p) :: rest =>
    match c.eval t p with
    | some true => .ok t p
    | some false => runWait c rest
    | none => .errd

/-- Whether a wait outcome is a resolution by a matching event. -/
def isOkOutcome : WaitOutcome → Bool
  | .ok _ _ => true
  | _ => false

/-- The static behavior flags of the process (bot.py `BehaviorFlags`);
only `no_basalisk` matters for the correlation layer. -/
structure BehaviorFlags where
  no_basalisk : Bool
deriving DecidableEq

/-- The payload `check_basalisk` publishes on `basalisk.offer`
(bot.py): `((this_uuid, None), string)`. -/
def offerPayload (uuid : List Nat) (s : String) : PyVal :=
  .tup [.tup [.bytes uuid, .pnone], .str s]

/-- The `basalisk.offer` payload as the spec's interface table words it:
the ordinal triple `(correlationId, reserved, text)`.  Written from the
spec, to be compared against `offerPayload` from the source. -/
def offerPayloadSpec (uuid : List Nat) (s : String) : PyVal :=
  .tup [.bytes uuid, .pnone, .str s]

/-- Embedding of `Salamander.check_basalisk` (bot.py).  Arguments beyond
the checked string: `this_uuid` stands for the fresh `uuid4().bytes`, and
`inbound` is the list of `ipc_recv` events dispatched before the 5 second
deadline, in order.  Returns the Python return value (`none` = the call
raised) together with the list of envelopes it published via `ipc_put`. -/
def check_basalisk (flags : BehaviorFlags) (this_uuid : List Nat) (s : String)
    (inbound : List (String × PyVal)) : Option Bool × List (String × PyVal) :=
  if flags.no_basalisk then
    (some false, [])
  else
    match runWait (.basalisk this_uuid) inbound with
    | .timedOut => (some false, [(BASALISK_OFFER, offerPayload this_uuid s)])
    | .ok _ _ => (some true, [(BASALISK_OFFER, offerPayload this_uuid s)])
    | .errd => (none, [(BASALISK_OFFER, offerPayload this_uuid s)])

/-- A payload `check_basalisk.matches` can unpack without raising:
a tuple with at least one element (`(recv_uuid, *_data) = payload`). -/
def unpackable1 : PyVal → Bool
  | .tup (_ :: _) => true
  | _ => false

/-- Whether an inbound event is a matching `basalisk.gaze` response for
correlation id `uuid`: topic `basalisk.gaze` and first payload element
equal to the id. -/
def gazeMatch (uuid : List Nat) (e : String × PyVal) : Bool :=
  match e.2 with
  | .tup (recv :: _) => e.1 == BASALISK_GAZE && recv.isBytes uuid
  | _ => false

/-- Result stored for a resolved waiter. -/
inductive WaitResult where
  | okr (topic : String) (payload : PyVal)
  | errd
  | timedOut

/-- Modelled from the spec: the Event Dispatcher (spec section 4.3), whose
implementation (discord.py `Client.wait_for` / `dispatch`) is not part of
this repository.  Listeners are `(token, predicate)` pairs; resolved
waiters keep their one-shot result keyed by token. -/
structure Dispatcher where
  listeners : List (Nat × Check)
  results : List (Nat × WaitResult)

/-- What a single dispatch does to one listener: `none` = the listener
stays registered (its predicate returned false), `some r` = the listener
is resolved with `r` and removed (predicate returned true, or raised). -/
def listenerOutcome (c : Check) (topic : String) (payload : PyVal) :
    Option WaitResult :=
  match c.eval topic payload with
  | some true => some (.okr topic payload)
  | some false => none
  | none => some .errd

/-- Modelled from the spec: dispatching one inbound event (spec section
4.3) — every registered listener whose predicate matches (or raises) is
resolved and removed; the rest stay registered. -/
def dispatchEvent (d : Dispatcher) (topic : String) (payload : PyVal) :
    Dispatcher where
  listeners := d.listeners.filter
    (fun l => (listenerOutcome l.2 topic payload).isNone)
  results := d.results ++ d.listeners.filterMap
    (fun l => (listenerOutcome l.2 topic payload).map (fun r => (l.1, r)))

/-- Modelled from the spec: deadline expiry of waiter `t` (spec sections
3 and 4.4 step 6) — the predicate is unregistered and the timeout result
recorded. -/
def timeoutWaiter (d : Dispatcher) (t : Nat) : Dispatcher where
  listeners := d.listeners.filter (fun l => l.1 != t)
  results :=
    if d.listeners.any (fun l => l.1 == t) then d.results ++ [(t, .timedOut)]
    else d.results

/-- Token lookup in a result list (first entry wins, as a one-shot slot
is written once). -/
def lookupTok (t : Nat) : List (Nat × WaitResult) → Option WaitResult
  | [] => none
  | (k, r) :: rest => if k = t then some r else lookupTok t rest

/-- Well-formed dispatcher state: no registered listener shares a token
with an already-resolved result, and listener tokens are distinct. -/
def Dispatcher.WF (d : Dispatcher) : Prop :=
  (∀ l ∈ d.listeners, lookupTok l.1 d.results = none) ∧
  (d.listeners.map (·.1)).Nodup

/-- The observable steps of a correlation round trip, in program order:
registering a waiter predicate (`bot.wait_for`) and publishing an
envelope (`bot.ipc_put`). -/
inductive IpcAction where
  | register (c : Check)
  | publish (topic : String) (payload : PyVal)

/-- The register/publish steps `Salamander.check_basalisk` performs, in
the order the source performs them: `fut = self.wait_for(...)` on the
line before `self.ipc_put(BASALISK_OFFER, ((this_uuid, None), string))`. -/
def check_basalisk_actions (flags : BehaviorFlags) (uuid : List Nat)
    (s : String) : List IpcAction :=
  if flags.no_basalisk then []
  else [.register (.basalisk uuid), .publish BASALISK_OFFER (offerPayload uuid s)]

/-- The register/publish steps `Filter.listpatterns` performs, in source
order: `f = self.bot.wait_for(...)` on the line before
`self.bot.ipc_put(STATUS_CHECK, this_uuid)`. -/
def listpatterns_actions (uuid : List Nat) : List IpcAction :=
  [.register (.status uuid), .publish STATUS_CHECK (.bytes uuid)]

/-- Run a trace of actions against the dispatcher, with an instant
responder: every published envelope may produce an immediate inbound
response, dispatched right after the publish.  The single waiter the
trace registers gets token `tok`. -/
def runActions (respond : String → PyVal → Option (String × PyVal))
    (tok : Nat) : List IpcAction → Dispatcher → Dispatcher
  | [], d => d
  | .register c :: rest, d =>
    runActions respond tok rest { d with listeners := d.listeners ++ [(tok, c)] }
  | .publish t p :: rest, d =>
    runActions respond tok rest
      (match respond t p with
       | some (rt, rp) => dispatchEvent d rt rp
       | none => d)

/-- An instant responder for the content-check protocol: echoes any
`basalisk.offer` envelope as a `basalisk.gaze` response carrying the same
correlation id. -/
def gazeEcho (topic : String) (payload : PyVal) : Option (String × PyVal) :=
  if topic == BASALISK_OFFER then
    match payload with
    | .tup [.tup [.bytes u, _], _] => some (BASALISK_GAZE, .tup [.bytes u, .pnone])
    | _ => none
  else none

/-- An instant responder for the status-query protocol: echoes any
`status.check` envelope as a `status.response` from component
`"basalisk"` carrying the same correlation id. -/
def statusEcho (topic : String) (payload : PyVal) : Option (String × PyVal) :=
  if topic == STATUS_CHECK then
    match payload with
    | .bytes u =>
      some (STATUS_RESPONSE,
        .tup [.bytes u, .str BASALISK, .num 0, .dict []])
    | _ => none
  else none

/-- What `Filter.listpatterns` tells the invoking user. -/
inductive Sent where
  | send (msg : String)
  | sendPaged (body : String)

/-- Python `"\n".join(v)` for the payload shapes that can reach it:
a tuple/list of strings, a string (joining its characters), or a dict
(joining its keys).  `none` = the join raised `TypeError`. -/
def asStr : PyVal → Option String
  | .str s => some s
  | _ => none

def joinLines : PyVal → Option String
  | .tup items => (items.mapM asStr).map (String.intercalate "\n")
  | .str s => some (String.intercalate "\n" (s.toList.map (fun c => String.mk [c])))
  | .dict entries => some (String.intercalate "\n" (entries.map (·.1)))
  | _ => none

/-- Embedding of `Filter.listpatterns` (filter.py) after the command
checks: generates `this_uuid`, registers the status predicate, publishes
`status.check`, and handles the awaited response.  `inbound` is the list
of `ipc_recv` events dispatched before the 5 second deadline.  Returns
what is said to the caller (`none` = the command raised) and the list of
envelopes published via `ipc_put`. -/
def listpatterns (this_uuid : List Nat) (inbound : List (String × PyVal)) :
    Option Sent × List (String × PyVal) :=
  let pubs := [(STATUS_CHECK, PyVal.bytes this_uuid)]
  match runWait (.status this_uuid) inbound with
  | .timedOut => (some (.send "No response from filtering service."), pubs)
  | .errd => (none, pubs)
  | .ok _ payload =>
    match payload with
    | .tup [_, _, _, .dict entries] =>
      match entries.lookup "patterns" with
      | some v =>
        if v.truthy then
          match joinLines v with
          | some body => (some (.sendPaged body), pubs)
          | none => (none, pubs)
        else (some (.send "No current patterns"), pubs)
      | none => (some (.send "No current patterns"), pubs)
    | _ => (none, pubs)

/-- A `guild_settings` row: the `feature_flags` integer column, plus the
rest of the row's columns abstracted into one value (the filter cog never
touches them).  SQLite integers are 64-bit two's complement; stored
`feature_flags` values are the non-negative ones this code writes. -/
structure GuildRow where
  feature_flags : Nat
  other : Nat
deriving DecidableEq, Repr

/-- The `guild_settings` table, keyed by `guild_id` (its primary key). -/
def GuildDB := Nat → Option GuildRow

/-- Schema defaults for the columns the `enable_in_guild` INSERT does not
name. -/
def defaultOther : Nat := 0

/-- Embedding of `Filter.check_enabled_in_guild` (filter.py):
`SELECT feature_flags & 1 FROM guild_settings WHERE guild_id = ?`, then
`return row[0]` when a row exists (an int, truthy iff non-zero) and
`False` otherwise. -/
def check_enabled_in_guild (db : GuildDB) (guild_id : Nat) : Bool :=
  match db guild_id with
  | some r => (r.feature_flags &&& 1) != 0
  | none => false

/-- Embedding of `Filter.enable_in_guild` (filter.py):
`INSERT INTO guild_settings (guild_id, feature_flags) VALUES (?, 1)
 ON CONFLICT (guild_id) DO UPDATE SET feature_flags=feature_flags | 1`. -/
def enable_in_guild (db : GuildDB) (guild_id : Nat) : GuildDB :=
  fun g =>
    if g = guild_id then
      match db guild_id with
      | some r => some { r with feature_flags := r.feature_flags ||| 1 }
      | none => some { feature_flags := 1, other := defaultOther }
    else db g

/-- Embedding of `Filter.disable_in_guild` (filter.py):
`UPDATE guild_settings SET feature_flags=feature_flags & ~1
 WHERE guild_id = ?`.  On the non-negative 64-bit values stored here,
`feature_flags & ~1` clears bit 0, i.e. maps `f` to `2 * (f / 2)`. -/
def disable_in_guild (db : GuildDB) (guild_id : Nat) : GuildDB :=
  fun g =>
    if g = guild_id then
      (db guild_id).map (fun r => { r with feature_flags := 2 * (r.feature_flags / 2) })
    else db g

/-- The bit-level view `check_enabled_in_guild` induces on a guild's
settings: a missing row reads as all flag bits clear. -/
def effectiveFlags (db : GuildDB) (guild_id : Nat) : Nat :=
  match db guild_id with
  | some r => r.feature_flags
  | none => 0


-- ## Helper lemmas

theorem lookupTok_append_of_some {t : Nat} {r : WaitResult}
    {l1 : List (Nat × WaitResult)} (l2 : List (Nat × WaitResult))
    (h : lookupTok t l1 = some r) : lookupTok t (l1 ++ l2) = some r := by
  induction l1 with
  | nil => simp [lookupTok] at h
  | cons hd tl ih =>
    obtain ⟨k, v⟩ := hd
    by_cases hk : k = t
    · simp only [lookupTok, hk, if_pos rfl] at h ⊢
      exact h
    · simp only [lookupTok, if_neg hk] at h ⊢
      exact ih h

theorem lookupTok_append_of_none {t : Nat}
    {l1 : List (Nat × WaitResult)} (l2 : List (Nat × WaitResult))
    (h : lookupTok t l1 = none) : lookupTok t (l1 ++ l2) = lookupTok t l2 := by
  induction l1 with
  | nil => simp
  | cons hd tl ih =>
    obtain ⟨k, v⟩ := hd
    by_cases hk : k = t
    · simp only [lookupTok, hk, if_pos rfl] at h
      exact absurd h (by simp)
    · simp only [lookupTok, if_neg hk] at h ⊢
      exact ih h

theorem runWait_timedOut_of_all_false (c : Check) :
    ∀ inbound : List (String × PyVal),
      (∀ e ∈ inbound, c.eval e.1 e.2 = some false) →
      runWait c inbound = .timedOut
  | [], _ => rfl
  | (t, p) :: rest, h => by
    have hh := h (t, p) (List.mem_cons_self _ _)
    have ih := runWait_timedOut_of_all_false c rest
      (fun e he => h e (List.mem_cons_of_mem _ he))
    simp only [runWait, hh, ih]

theorem runWait_basalisk_char (uuid : List Nat) :
    ∀ inbound : List (String × PyVal),
      (∀ e ∈ inbound, unpackable1 e.2 = true) →
      isOkOutcome (runWait (.basalisk uuid) inbound) = inbound.any (gazeMatch uuid) ∧
      (inbound.any (gazeMatch uuid) = false →
        runWait (.basalisk uuid) inbound = .timedOut)
  | [], _ => ⟨rfl, fun _ => rfl⟩
  | (t, p) :: rest, h => by
    have hu : unpackable1 p = true := h (t, p) (List.mem_cons_self _ _)
    have ih := runWait_basalisk_char uuid rest
      (fun e he => h e (List.mem_cons_of_mem _ he))
    match p, hu with
    | .tup (recv :: more), _ =>
      by_cases hm : (t == BASALISK_GAZE && recv.isBytes uuid) = true
      · constructor
        · simp [runWait, Check.eval, gazeMatch, List.any_cons, hm, isOkOutcome]
        · intro hall
          simp only [List.any_cons, gazeMatch, Bool.or_eq_false_iff] at hall
          exact absurd hm (by simp [hall.1])
      · have hm' : (t == BASALISK_GAZE && recv.isBytes uuid) = false := by
          simpa using hm
        constructor
        · simp [runWait, Check.eval, gazeMatch, List.any_cons, hm', ih.1]
        · intro hall
          simp only [List.any_cons, gazeMatch, Bool.or_eq_false_iff] at hall
          simp [runWait, Check.eval, hm', ih.2 hall.2]

/-- C1: with the content check enabled, `check_basalisk` returns `True`
when some inbound `ipc_recv` event before the deadline has topic
`basalisk.gaze` and first payload element equal to the correlation id it
generated, and returns `False` when no such event arrives before the
deadline (the wait times out).  The hypothesis restricts attention to
inbound payloads the predicate can unpack (protocol-shaped tuples). -/
theorem check_basalisk_resolution (uuid : List Nat) (s : String)
    (inbound : List (String × PyVal))
    (h : ∀ e ∈ inbound, unpackable1 e.2 = true) :
    (inbound.any (gazeMatch uuid) = true →
      (check_basalisk ⟨false⟩ uuid s inbound).1 = some true) ∧
    (inbound.any (gazeMatch uuid) = false →
      (check_basalisk ⟨false⟩ uuid s inbound).1 = some false) := by
  obtain ⟨h1, h2⟩ := runWait_basalisk_char uuid inbound h
  constructor
  · intro hany
    have hok : isOkOutcome (runWait (.basalisk uuid) inbound) = true := by
      rw [h1]; exact hany
    cases hw : runWait (.basalisk uuid) inbound with
    | ok t p => simp [check_basalisk, hw]
    | errd => rw [hw] at hok; exact absurd hok (by simp [isOkOutcome])
    | timedOut => rw [hw] at hok; exact absurd hok (by simp [isOkOutcome])
  · intro hnone
    simp [check_basalisk, h2 hnone]

theorem check_basalisk_resolution_witness :
    ((List.any [(BASALISK_GAZE, PyVal.tup [.bytes [7], .pnone])] (gazeMatch [7])) = true →
      (check_basalisk ⟨false⟩ [7] "x" [(BASALISK_GAZE, PyVal.tup [.bytes [7], .pnone])]).1 = some true) ∧
    ((List.any ([] : List (String × PyVal)) (gazeMatch [7])) = false →
      (check_basalisk ⟨false⟩ [7] "x" ([] : List (String × PyVal))).1 = some false) :=
  ⟨(check_basalisk_resolution [7] "x" _ (by decide)).1,
   (check_basalisk_resolution [7] "x" _ (by decide)).2⟩

/-- C3: with `no_basalisk` set, `check_basalisk` returns `False`
immediately and publishes nothing, whatever arrives on the wire. -/
theorem check_basalisk_disabled (uuid : List Nat) (s : String)
    (inbound : List (String × PyVal)) :
    check_basalisk ⟨true⟩ uuid s inbound = (some false, []) := rfl

/-- C4 counterexample: at correlation id `[0]` and text `"a"`, the payload
published on `basalisk.offer` is the nested pair
`((correlationId, None), text)`, which is not the spec's flat ordinal
triple `(correlationId, reserved, text)`. -/
theorem offer_payload_not_flat_triple :
    (check_basalisk ⟨false⟩ [0] "a" []).2 =
      [(BASALISK_OFFER, PyVal.tup [.tup [.bytes [0], .pnone], .str "a"])] ∧
    PyVal.tup [.tup [.bytes [0], .pnone], .str "a"] ≠ offerPayloadSpec [0] "a" := by
  refine ⟨rfl, ?_⟩
  intro hcontr
  simp only [offerPayloadSpec, PyVal.tup.injEq, List.cons.injEq] at hcontr
  exact PyVal.noConfusion hcontr.1

/-- C4 amended: for every string input (feature enabled), the single
envelope the content check publishes has topic `basalisk.offer` and as
payload the ordinal *pair* `((correlationId, reserved), text)`: a 2-tuple
whose first element is the pair of the correlation id bytes and the
reserved `None` field, and whose second element is the checked text. -/
theorem offer_payload_nested_pair (uuid : List Nat) (s : String)
    (inbound : List (String × PyVal)) :
    (check_basalisk ⟨false⟩ uuid s inbound).2 =
      [(BASALISK_OFFER, PyVal.tup [.tup [.bytes uuid, .pnone], .str s])] := by
  cases hw : runWait (.basalisk uuid) inbound <;>
    simp [check_basalisk, hw, offerPayload]

/-- C5: correlation-id exclusivity of the waiter predicates.  For
distinct ids `a ≠ b`, an envelope whose payload carries id `a` never
satisfies the waiter predicate generated for `b` (both the content-check
and the status-query closures), and either predicate returns true only
when the received first payload element is exactly the id it generated. -/
theorem waiter_predicates_id_exclusive (a b : List Nat) (hab : a ≠ b)
    (topic : String) (v w : PyVal) (rest : List PyVal) :
    (Check.basalisk b).eval topic (.tup (.bytes a :: rest)) = some false ∧
    (Check.status b).eval topic (.tup (.bytes a :: w :: rest)) = some false ∧
    ((Check.basalisk b).eval topic (.tup (v :: rest)) = some true →
      v = .bytes b) ∧
    ((Check.status b).eval topic (.tup (v :: w :: rest)) = some true →
      v = .bytes b) := by
  have hfalse : (a == b) = false := beq_eq_false_iff_ne.mpr hab
  refine ⟨?_, ?_, ?_, ?_⟩
  · simp [Check.eval, PyVal.isBytes, hfalse]
  · simp [Check.eval, PyVal.isBytes, hfalse]
  · intro hv
    simp only [Check.eval, Option.some.injEq, Bool.and_eq_true, beq_iff_eq] at hv
    cases v with
    | bytes b' =>
      simp only [PyVal.isBytes, beq_iff_eq] at hv
      rw [hv.2]
    | str _ => simp [PyVal.isBytes] at hv
    | pnone => simp [PyVal.isBytes] at hv
    | num _ => simp [PyVal.isBytes] at hv
    | tup _ => simp [PyVal.isBytes] at hv
    | dict _ => simp [PyVal.isBytes] at hv
  · intro hv
    simp only [Check.eval, Option.some.injEq, Bool.and_eq_true, beq_iff_eq] at hv
    cases v with
    | bytes b' =>
      simp only [PyVal.isBytes, beq_iff_eq] at hv
      rw [hv.1.2]
    | str _ => simp [PyVal.isBytes] at hv
    | pnone => simp [PyVal.isBytes] at hv
    | num _ => simp [PyVal.isBytes] at hv
    | tup _ => simp [PyVal.isBytes] at hv
    | dict _ => simp [PyVal.isBytes] at hv

theorem waiter_predicates_id_exclusive_witness :
    (Check.basalisk [1]).eval BASALISK_GAZE (.tup [.bytes [0]]) = some false ∧
    (Check.status [1]).eval STATUS_RESPONSE
      (.tup [.bytes [0], .str BASALISK]) = some false ∧
    ((Check.basalisk [1]).eval BASALISK_GAZE (.tup [.bytes [1]]) = some true →
      PyVal.bytes [1] = .bytes [1]) ∧
    ((Check.status [1]).eval STATUS_RESPONSE
        (.tup [.bytes [1], .str BASALISK]) = some true →
      PyVal.bytes [1] = .bytes [1]) :=
  ⟨(waiter_predicates_id_exclusive [0] [1] (by decide) BASALISK_GAZE
      (.bytes [1]) (.str BASALISK) []).1,
   (waiter_predicates_id_exclusive [0] [1] (by decide) STATUS_RESPONSE
      (.bytes [1]) (.str BASALISK) []).2.1,
   (waiter_predicates_id_exclusive [0] [1] (by decide) BASALISK_GAZE
      (.bytes [1]) (.str BASALISK) []).2.2.1,
   (waiter_predicates_id_exclusive [0] [1] (by decide) STATUS_RESPONSE
      (.bytes [1]) (.str BASALISK) []).2.2.2⟩

/-- C6: the status-query predicate accepts an event exactly when the
topic is `status.response`, the received correlation id equals the one
generated for this query, and the component name equals `"basalisk"`;
in particular a response with the right id but a different component
name is rejected. -/
theorem PyVal.eq_bytes_of_isBytes {b : List Nat} {v : PyVal}
    (h : v.isBytes b = true) : v = .bytes b := by
  cases v <;> simp only [PyVal.isBytes] at h
  · rw [beq_iff_eq.mp h]
  all_goals exact absurd h (by simp)

theorem PyVal.eq_str_of_isStr {s : String} {v : PyVal}
    (h : v.isStr s = true) : v = .str s := by
  cases v <;> simp only [PyVal.isStr] at h
  case str => rw [beq_iff_eq.mp h]
  all_goals exact absurd h (by simp)

theorem status_predicate_discrimination (uuid : List Nat) (topic : String)
    (recv comp : PyVal) (rest : List PyVal) :
    ((Check.status uuid).eval topic (.tup (recv :: comp :: rest)) = some true ↔
      topic = STATUS_RESPONSE ∧ recv = .bytes uuid ∧ comp = .str BASALISK) ∧
    (comp ≠ .str BASALISK →
      (Check.status uuid).eval topic (.tup (.bytes uuid :: comp :: rest)) =
        some false) := by
  constructor
  · constructor
    · intro hv
      simp only [Check.eval, Option.some.injEq, Bool.and_eq_true, beq_iff_eq] at hv
      exact ⟨hv.1.1, PyVal.eq_bytes_of_isBytes hv.1.2, PyVal.eq_str_of_isStr hv.2⟩
    · rintro ⟨h1, h2, h3⟩
      subst h1; subst h2; subst h3
      simp [Check.eval, PyVal.isBytes, PyVal.isStr]
  · intro hne
    have : comp.isStr BASALISK = false := by
      cases comp with
      | str s =>
        simp only [PyVal.isStr, beq_eq_false_iff_ne]
        intro hs
        exact hne (by rw [hs])
      | bytes _ => rfl
      | pnone => rfl
      | num _ => rfl
      | tup _ => rfl
      | dict _ => rfl
    simp [Check.eval, this]

theorem status_predicate_discrimination_witness :
    ((Check.status [2]).eval STATUS_RESPONSE
        (.tup [.bytes [2], .str "notbasalisk"]) = some true ↔
      STATUS_RESPONSE = STATUS_RESPONSE ∧
        PyVal.bytes [2] = .bytes [2] ∧
        PyVal.str "notbasalisk" = .str BASALISK) ∧
    (PyVal.str "notbasalisk" ≠ .str BASALISK →
      (Check.status [2]).eval STATUS_RESPONSE
        (.tup [.bytes [2], .str "notbasalisk"]) = some false) :=
  status_predicate_discrimination [2] STATUS_RESPONSE
    (.bytes [2]) (.str "notbasalisk") []

/-- C7: when no event before the deadline satisfies the status-query
predicate, `listpatterns` resolves by telling the caller
`"No response from filtering service."` (after having published its
`status.check` request), rather than raising or staying silent. -/
theorem listpatterns_timeout_message (uuid : List Nat)
    (inbound : List (String × PyVal))
    (h : ∀ e ∈ inbound, (Check.status uuid).eval e.1 e.2 = some false) :
    listpatterns uuid inbound =
      (some (.send "No response from filtering service."),
       [(STATUS_CHECK, .bytes uuid)]) := by
  have ht := runWait_timedOut_of_all_false (.status uuid) inbound h
  simp [listpatterns, ht]

theorem listpatterns_timeout_message_witness :
    listpatterns [3] [(BASALISK_GAZE, PyVal.tup [.bytes [3], .str BASALISK])] =
      (some (.send "No response from filtering service."),
       [(STATUS_CHECK, .bytes [3])]) :=
  listpatterns_timeout_message [3] _ (by decide)

/-- C2: listen-before-send.  In both round trips the source registers the
waiter predicate (step 0 of the action trace) strictly before publishing
the request envelope (step 1); consequently, against an instant responder
whose reply is dispatched immediately after the publish, the waiter still
resolves with the matching response instead of losing it. -/
theorem register_before_publish (uuid : List Nat) (s : String) :
    (check_basalisk_actions ⟨false⟩ uuid s).get? 0 =
      some (.register (.basalisk uuid)) ∧
    (check_basalisk_actions ⟨false⟩ uuid s).get? 1 =
      some (.publish BASALISK_OFFER (offerPayload uuid s)) ∧
    (listpatterns_actions uuid).get? 0 = some (.register (.status uuid)) ∧
    (listpatterns_actions uuid).get? 1 =
      some (.publish STATUS_CHECK (.bytes uuid)) ∧
    lookupTok 0 (runActions gazeEcho 0
        (check_basalisk_actions ⟨false⟩ uuid s) ⟨[], []⟩).results =
      some (.okr BASALISK_GAZE (.tup [.bytes uuid, .pnone])) ∧
    lookupTok 0 (runActions statusEcho 0
        (listpatterns_actions uuid) ⟨[], []⟩).results =
      some (.okr STATUS_RESPONSE
        (.tup [.bytes uuid, .str BASALISK, .num 0, .dict []])) := by
  refine ⟨rfl, rfl, rfl, rfl, ?_, ?_⟩
  · simp [check_basalisk_actions, runActions, gazeEcho, offerPayload,
      dispatchEvent, listenerOutcome, Check.eval, PyVal.isBytes,
      lookupTok, BASALISK_OFFER, BASALISK_GAZE]
  · simp [listpatterns_actions, runActions, statusEcho,
      dispatchEvent, listenerOutcome, Check.eval, PyVal.isBytes, PyVal.isStr,
      lookupTok, STATUS_CHECK, STATUS_RESPONSE, BASALISK]

theorem nodup_tokens_unique {t : Nat} {c c' : Check} :
    ∀ l : List (Nat × Check), (l.map (·.1)).Nodup →
      (t, c) ∈ l → (t, c') ∈ l → c = c' := by
  intro l
  induction l with
  | nil => intro _ hmem _; exact absurd hmem (List.not_mem_nil _)
  | cons hd rest ih =>
    intro hnd hmem hmem'
    obtain ⟨k, c0⟩ := hd
    simp only [List.map_cons, List.nodup_cons] at hnd
    rcases List.mem_cons.mp hmem with heq | htl
    · injection heq with h1 h2
      subst h1; subst h2
      rcases List.mem_cons.mp hmem' with heq' | htl'
      · injection heq' with h3 h4
        exact h4.symm
      · exact absurd (List.mem_map_of_mem (·.1) htl') hnd.1
    · rcases List.mem_cons.mp hmem' with heq' | htl'
      · injection heq' with h3 h4
        subst h3
        exact absurd (List.mem_map_of_mem (·.1) htl) hnd.1
      · exact ih hnd.2 htl htl'

theorem lookupTok_resolved (topic : String) (payload : PyVal)
    (t : Nat) (c : Check) (r : WaitResult) :
    ∀ l : List (Nat × Check), (l.map (·.1)).Nodup → (t, c) ∈ l →
      listenerOutcome c topic payload = some r →
      lookupTok t (l.filterMap
        (fun x => (listenerOutcome x.2 topic payload).map (fun r' => (x.1, r')))) =
        some r
  | [], _, hmem, _ => absurd hmem (List.not_mem_nil _)
  | (k, c0) :: rest, hnd, hmem, hfire => by
    simp only [List.map_cons, List.nodup_cons] at hnd
    rcases List.mem_cons.mp hmem with heq | htl
    · obtain ⟨hk, hc⟩ := Prod.mk.inj heq
      subst hk; subst hc
      simp only [List.filterMap_cons, hfire, Option.map_some']
      simp [lookupTok]
    · have hk : k ≠ t := by
        intro hkt
        exact hnd.1 (hkt ▸ List.mem_map_of_mem (·.1) htl)
      have ih := lookupTok_resolved topic payload t c r rest hnd.2 htl hfire
      cases ho : listenerOutcome c0 topic payload with
      | none => simpa [List.filterMap_cons, ho] using ih
      | some r0 =>
        simp only [List.filterMap_cons, ho, Option.map_some']
        simpa [lookupTok, hk] using ih

theorem not_listening_after_filter (t : Nat) (p : Nat × Check → Bool)
    (l : List (Nat × Check)) (h : ∀ c', (t, c') ∉ l) :
    ∀ c', (t, c') ∉ l.filter p := by
  intro c' hmem
  exact h c' (List.mem_of_mem_filter hmem)

theorem dispatch_keeps_resolved (d : Dispatcher) (t : Nat) (r : WaitResult)
    (topic : String) (payload : PyVal)
    (hres : lookupTok t d.results = some r)
    (hout : ∀ c', (t, c') ∉ d.listeners) :
    lookupTok t (dispatchEvent d topic payload).results = some r ∧
    (∀ c', (t, c') ∉ (dispatchEvent d topic payload).listeners) :=
  ⟨lookupTok_append_of_some _ hres,
   not_listening_after_filter t _ d.listeners hout⟩

/-- C8: a pending request is resolved at most once and its predicate is
unregistered upon resolution.  From a well-formed state in which waiter
`t` with predicate `c` is registered and unresolved: if an inbound event
fires `c`, then after that dispatch the waiter's one-shot result holds the
matching event, `t` is no longer registered, and any later dispatch (a
duplicate or replay carrying the same id) leaves the stored result and the
absence of the listener untouched; likewise, deadline expiry records the
timeout result exactly once, unregisters `t`, and later replays leave it
untouched. -/
theorem pending_request_resolved_once (d : Dispatcher) (t : Nat) (c : Check)
    (r : WaitResult) (topic topic2 : String) (payload payload2 : PyVal)
    (hwf : d.WF) (hmem : (t, c) ∈ d.listeners)
    (hfire : listenerOutcome c topic payload = some r) :
    (lookupTok t (dispatchEvent d topic payload).results = some r ∧
      (∀ c', (t, c') ∉ (dispatchEvent d topic payload).listeners)) ∧
    (lookupTok t (dispatchEvent (dispatchEvent d topic payload) topic2
        payload2).results = some r ∧
      (∀ c', (t, c') ∉ (dispatchEvent (dispatchEvent d topic payload) topic2
        payload2).listeners)) ∧
    (lookupTok t (timeoutWaiter d t).results = some WaitResult.timedOut ∧
      (∀ c', (t, c') ∉ (timeoutWaiter d t).listeners)) ∧
    (lookupTok t (dispatchEvent (timeoutWaiter d t) topic2 payload2).results =
        some WaitResult.timedOut ∧
      (∀ c', (t, c') ∉ (dispatchEvent (timeoutWaiter d t) topic2
        payload2).listeners)) := by
  obtain ⟨hdisj, hnd⟩ := hwf
  have hnone : lookupTok t d.results = none := hdisj (t, c) hmem
  have hres1 : lookupTok t (dispatchEvent d topic payload).results = some r := by
    rw [dispatchEvent, lookupTok_append_of_none _ hnone]
    exact lookupTok_resolved topic payload t c r d.listeners hnd hmem hfire
  have hout1 : ∀ c', (t, c') ∉ (dispatchEvent d topic payload).listeners := by
    intro c' hmem'
    have hin : (t, c') ∈ d.listeners := List.mem_of_mem_filter hmem'
    have hceq : c = c' := nodup_tokens_unique d.listeners hnd hmem hin
    subst hceq
    have : (listenerOutcome c topic payload).isNone = true :=
      (List.mem_filter.mp hmem').2
    rw [hfire] at this
    exact absurd this (by simp)
  have htimeo : lookupTok t (timeoutWaiter d t).results = some WaitResult.timedOut := by
    have hany : d.listeners.any (fun l => l.1 == t) = true := by
      refine List.any_eq_true.mpr ⟨(t, c), hmem, ?_⟩
      simp
    rw [timeoutWaiter]
    simp only [hany, if_pos]
    rw [lookupTok_append_of_none _ hnone]
    simp [lookupTok]
  have houtt : ∀ c', (t, c') ∉ (timeoutWaiter d t).listeners := by
    intro c' hmem'
    have := (List.mem_filter.mp hmem').2
    simp at this
  refine ⟨⟨hres1, hout1⟩,
    dispatch_keeps_resolved _ t r topic2 payload2 hres1 hout1,
    ⟨htimeo, houtt⟩,
    dispatch_keeps_resolved _ t WaitResult.timedOut topic2 payload2 htimeo houtt⟩

theorem pending_request_resolved_once_witness :
    (lookupTok 0 (dispatchEvent ⟨[(0, .basalisk [5])], []⟩ BASALISK_GAZE
        (.tup [.bytes [5], .pnone])).results =
      some (.okr BASALISK_GAZE (.tup [.bytes [5], .pnone])) ∧
      (∀ c', (0, c') ∉ (dispatchEvent ⟨[(0, .basalisk [5])], []⟩ BASALISK_GAZE
        (.tup [.bytes [5], .pnone])).listeners)) ∧
    (lookupTok 0 (dispatchEvent (dispatchEvent ⟨[(0, .basalisk [5])], []⟩
        BASALISK_GAZE (.tup [.bytes [5], .pnone])) BASALISK_GAZE
        (.tup [.bytes [5], .pnone])).results =
      some (.okr BASALISK_GAZE (.tup [.bytes [5], .pnone])) ∧
      (∀ c', (0, c') ∉ (dispatchEvent (dispatchEvent ⟨[(0, .basalisk [5])], []⟩
        BASALISK_GAZE (.tup [.bytes [5], .pnone])) BASALISK_GAZE
        (.tup [.bytes [5], .pnone])).listeners)) ∧
    (lookupTok 0 (timeoutWaiter ⟨[(0, .basalisk [5])], []⟩ 0).results =
      some WaitResult.timedOut ∧
      (∀ c', (0, c') ∉ (timeoutWaiter ⟨[(0, .basalisk [5])], []⟩ 0).listeners)) ∧
    (lookupTok 0 (dispatchEvent (timeoutWaiter ⟨[(0, .basalisk [5])], []⟩ 0)
        BASALISK_GAZE (.tup [.bytes [5], .pnone])).results =
      some WaitResult.timedOut ∧
      (∀ c', (0, c') ∉ (dispatchEvent (timeoutWaiter ⟨[(0, .basalisk [5])], []⟩ 0)
        BASALISK_GAZE (.tup [.bytes [5], .pnone])).listeners)) :=
  pending_request_resolved_once ⟨[(0, .basalisk [5])], []⟩ 0 (.basalisk [5])
    (.okr BASALISK_GAZE (.tup [.bytes [5], .pnone])) BASALISK_GAZE BASALISK_GAZE
    (.tup [.bytes [5], .pnone]) (.tup [.bytes [5], .pnone])
    ⟨fun l _ => rfl, by simp⟩ (by simp) rfl

/-- C9: `enable_in_guild` and `disable_in_guild` are frame-preserving.
Rows of every other guild are untouched; on the target guild's existing
row, every other column (`other`) is unchanged and every bit of
`feature_flags` above bit 0 is unchanged by both operations. -/
theorem enable_disable_only_bit0 (db : GuildDB) (g gother : Nat) (r : GuildRow)
    (hne : gother ≠ g) (hrow : db g = some r) :
    (enable_in_guild db g gother = db gother ∧
      disable_in_guild db g gother = db gother) ∧
    (enable_in_guild db g g =
        some { r with feature_flags := r.feature_flags ||| 1 } ∧
      ∀ i, 0 < i →
        (r.feature_flags ||| 1).testBit i = r.feature_flags.testBit i) ∧
    (disable_in_guild db g g =
        some { r with feature_flags := 2 * (r.feature_flags / 2) } ∧
      ∀ i, 0 < i →
        (2 * (r.feature_flags / 2)).testBit i = r.feature_flags.testBit i) := by
  refine ⟨⟨?_, ?_⟩, ⟨?_, ?_⟩, ⟨?_, ?_⟩⟩
  · simp [enable_in_guild, hne]
  · simp [disable_in_guild, hne]
  · simp [enable_in_guild, hrow]
  · intro i hi
    obtain ⟨j, rfl⟩ : ∃ j, i = j + 1 := ⟨i - 1, by omega⟩
    rw [Nat.testBit_lor, Nat.testBit_succ, Nat.testBit_succ]
    norm_num
  · simp [disable_in_guild, hrow]
  · intro i hi
    obtain ⟨j, rfl⟩ : ∃ j, i = j + 1 := ⟨i - 1, by omega⟩
    rw [Nat.testBit_succ, Nat.testBit_succ,
      Nat.mul_div_cancel_left _ (by norm_num : 0 < 2)]

theorem enable_disable_only_bit0_witness :
    (enable_in_guild (fun n => if n = 1 then some ⟨6, 42⟩ else none) 1 2 =
        (fun n => if n = 1 then some (⟨6, 42⟩ : GuildRow) else none) 2 ∧
      disable_in_guild (fun n => if n = 1 then some ⟨6, 42⟩ else none) 1 2 =
        (fun n => if n = 1 then some (⟨6, 42⟩ : GuildRow) else none) 2) ∧
    (enable_in_guild (fun n => if n = 1 then some ⟨6, 42⟩ else none) 1 1 =
        some { (⟨6, 42⟩ : GuildRow) with feature_flags := 6 ||| 1 } ∧
      ∀ i, 0 < i → (6 ||| 1 : Nat).testBit i = (6 : Nat).testBit i) ∧
    (disable_in_guild (fun n => if n = 1 then some ⟨6, 42⟩ else none) 1 1 =
        some { (⟨6, 42⟩ : GuildRow) with feature_flags := 2 * (6 / 2) } ∧
      ∀ i, 0 < i → (2 * (6 / 2) : Nat).testBit i = (6 : Nat).testBit i) :=
  enable_disable_only_bit0 (fun n => if n = 1 then some ⟨6, 42⟩ else none) 1 2
    ⟨6, 42⟩ (by decide) rfl

/-- C10: with no `guild_settings` row for a guild, the per-guild toggle
reads disabled; after `enable_in_guild` it reads enabled, while after
`disable_in_guild` (from the same rowless state) it still reads
disabled. -/
theorem toggle_default_disabled (db : GuildDB) (g : Nat) (h : db g = none) :
    check_enabled_in_guild db g = false ∧
    check_enabled_in_guild (enable_in_guild db g) g = true ∧
    check_enabled_in_guild (disable_in_guild db g) g = false := by
  refine ⟨?_, ?_, ?_⟩ <;>
    simp [check_enabled_in_guild, enable_in_guild, disable_in_guild, h]

theorem toggle_default_disabled_witness :
    check_enabled_in_guild (fun _ => none) 9 = false ∧
    check_enabled_in_guild (enable_in_guild (fun _ => none) 9) 9 = true ∧
    check_enabled_in_guild (disable_in_guild (fun _ => none) 9) 9 = false :=
  toggle_default_disabled (fun _ => none) 9 rfl
